import Mathlib

/-!
Shallow embedding of the Hindi_Vosk repository's streaming-transcription code.

The embedded source functions:
* `VoskSpeechRecognizer.transcribe_audio_file` (src/Testing_STT.py, lines 73-131):
  temp-file creation, format checks for the no-librosa fallback, the fixed-size
  chunk loop over the decoded sample buffer, the trailing `FinalResult` flush,
  `.strip()`, the catch-all exception handler and the `finally` cleanup.
* `listen_audio` (src/Hindi_STT.py, lines 32-43): the live-microphone loop that
  appends only non-empty final texts, each with one trailing separator.
* the start/stop/clear button handlers of src/Hindi_STT.py (lines 134-154).

The opaque `vosk.KaldiRecognizer` collaborator is modelled as a deterministic
state machine `RecModel`; a call that raises a Python exception is modelled by
`Except.error ()`.  The filesystem visible to `tempfile` / `os.unlink` is
modelled by `FS`.
-/

/-- Raw audio chunk: a sequence of 16-bit signed samples, modelled as integers. -/
abbrev Chunk := List Int

/-- Number of iterations of Python's `range(0, n, k)` for `k > 0`: `ceil (n / k)`. -/
def pyRangeLen (n k : Nat) : Nat := (n + k - 1) / k

/-- The chunk size used by both transcription loops in the source: 4000 samples. -/
def chunk_size : Nat := 4000

/-- Embedding of the slicing loop of `VoskSpeechRecognizer.transcribe_audio_file`:
`for i in range(0, len(audio_int16), chunk_size): chunk = audio_int16[i:i+chunk_size]`.
The list of the sequential slices of the decoded sample buffer, in loop order. -/
def fileChunks (k : Nat) (buf : List Int) : List Chunk :=
  (List.range' 0 (pyRangeLen buf.length k) k).map (fun i => (buf.drop i).take k)

/-- Deterministic model of the opaque `vosk.KaldiRecognizer` collaborator.
`accept` embeds `AcceptWaveform` (the `Bool` is its return value; `Except.error ()`
models the call raising a Python exception); `result` embeds `Result()` (returning
the text of the parsed JSON, defaulting to `""` for a missing key, together with the
successor recognizer state); `interimResult` embeds `PartialResult()`; `finalResult`
embeds `FinalResult()`.  `init` is the state of a freshly constructed recognizer. -/
structure RecModel (σ : Type) where
  init : σ
  accept : σ → Chunk → Except Unit (Bool × σ)
  result : σ → String × σ
  interimResult : σ → String × σ
  finalResult : σ → String

/-- Embedding of the chunk loop of `transcribe_audio_file`:
`if rec.AcceptWaveform(chunk.tobytes()): transcript += result.get("text","") + " "`.
Carries the recognizer state and the accumulated transcript; an exception raised by
`AcceptWaveform` aborts the loop with `Except.error ()`. -/
def chunkLoop {σ : Type} (R : RecModel σ) : List Chunk → σ → String → Except Unit (σ × String)
  | [], s, t => Except.ok (s, t)
  | c :: cs, s, t =>
    match R.accept s c with
    | Except.error e => Except.error e
    | Except.ok (b, s₁) =>
      if b then
        chunkLoop R cs (R.result s₁).2 (t ++ (R.result s₁).1 ++ " ")
      else
        chunkLoop R cs s₁ t

/-- The sequence of final texts emitted by the chunk loop (the `Result()` text of each
chunk on which `AcceptWaveform` returned true), in emission order, together with the
recognizer state left after the loop. -/
def collectFinals {σ : Type} (R : RecModel σ) : List Chunk → σ → Except Unit (σ × List String)
  | [], s => Except.ok (s, [])
  | c :: cs, s =>
    match R.accept s c with
    | Except.error e => Except.error e
    | Except.ok (b, s₁) =>
      if b then
        match collectFinals R cs (R.result s₁).2 with
        | Except.error e => Except.error e
        | Except.ok (s₂, ts) => Except.ok (s₂, (R.result s₁).1 :: ts)
      else
        collectFinals R cs s₁

/-- The final texts emitted by the chunk loop before an exception aborts it, together
with a flag recording whether an exception occurred. -/
def finalsUntilError {σ : Type} (R : RecModel σ) : List Chunk → σ → List String × Bool
  | [], _ => ([], false)
  | c :: cs, s =>
    match R.accept s c with
    | Except.error _ => ([], true)
    | Except.ok (b, s₁) =>
      if b then
        ((R.result s₁).1 :: (finalsUntilError R cs (R.result s₁).2).1,
          (finalsUntilError R cs (R.result s₁).2).2)
      else
        finalsUntilError R cs s₁

/-- Embedding of Python's `str.strip()`: removes leading and trailing whitespace. -/
def pyStrip (s : String) : String :=
  ⟨((s.data.dropWhile Char.isWhitespace).reverse.dropWhile Char.isWhitespace).reverse⟩

/-- Embedding of the transcription core of `transcribe_audio_file` (lines 106-122):
fresh recognizer, chunk loop, trailing `FinalResult` flush, `transcript.strip()`. -/
def transcribeCore {σ : Type} (R : RecModel σ) (audio : List Int) : Except Unit String :=
  match chunkLoop R (fileChunks chunk_size audio) R.init "" with
  | Except.error e => Except.error e
  | Except.ok (s, t) => Except.ok (pyStrip (t ++ R.finalResult s))

/-- Every `Final` text emitted during one file-mode session, in emission order: the
`Result()` texts of the accepted chunks followed by the `FinalResult()` text flushed
by the end-of-stream stop. -/
def emittedFinals {σ : Type} (R : RecModel σ) (audio : List Int) : Except Unit (List String) :=
  match collectFinals R (fileChunks chunk_size audio) R.init with
  | Except.error e => Except.error e
  | Except.ok (s, ts) => Except.ok (ts ++ [R.finalResult s])

/-- Modelled from the spec: the concatenation of a list of segments with a single
separator between consecutive segments (the spec's reading of `displayed_text`). -/
def sepConcat : List String → String
  | [] => ""
  | [t] => t
  | t :: t₂ :: ts => t ++ " " ++ sepConcat (t₂ :: ts)

/-- Concatenation of a list of texts, each followed by exactly one trailing
separator, as performed by all three appending loops in the source. -/
def trailingCat : List String → String
  | [] => ""
  | t :: ts => t ++ " " ++ trailingCat ts

/-- Single-quote character, used to reproduce the source's error message verbatim. -/
def squote : String := (Char.ofNat 39).toString

/-- Error string returned by `transcribe_audio_file` when no model is loaded. -/
def modelNotLoadedMsg : String := "Error: Vosk model is not loaded."

/-- Error string returned by the no-librosa fallback when the channel count, sample
width or compression type check fails (src/Testing_STT.py line 101). -/
def librosaMissingMsg : String :=
  "Error: Without " ++ squote ++ "librosa" ++ squote ++
    ", only 16-bit mono PCM WAV files are supported."

/-- Error string returned by the no-librosa fallback for a wrong sample rate
(src/Testing_STT.py line 103). -/
def wrongRateMsg (required actual : Nat) : String :=
  "Error: Audio must be " ++ toString required ++ "Hz. This file is " ++
    toString actual ++ "Hz."

/-- Error string returned by the catch-all exception handler (line 126). -/
def processingErrMsg : String := "Error during transcription."

/-- Header and samples of a WAV file as read by the `wave` module. -/
structure WavFile where
  nchannels : Nat
  sampwidth : Nat
  comptype : String
  framerate : Nat
  samples : List Int
deriving DecidableEq

/-- An uploaded audio file.  `readOk` models whether `audio_file.read()` succeeds;
`librosaDecode` is the decoded 16 kHz mono sample buffer produced by
`librosa.load` (`none`: the call raises); `wavParse` is the result of
`wave.open` (`none`: the call raises, e.g. on a non-WAV file). -/
structure AudioFile where
  name : String
  readOk : Bool
  librosaDecode : Option (List Int)
  wavParse : Option WavFile
deriving DecidableEq

/-- The filesystem state visible to `tempfile.NamedTemporaryFile` and `os.unlink`:
a supply of fresh temp-file identifiers and the set of temp files on disk. -/
structure FS where
  nextId : Nat
  files : List Nat
deriving DecidableEq

/-- Creation of a named temporary file with `delete=False`: the file appears on
disk and its identifier is returned. -/
def FS.create (fs : FS) : Nat × FS :=
  (fs.nextId, ⟨fs.nextId + 1, fs.nextId :: fs.files⟩)

/-- Embedding of `os.unlink` guarded by `os.path.exists`. -/
def FS.unlink (fs : FS) (i : Nat) : FS := ⟨fs.nextId, fs.files.erase i⟩

/-- Embedding of the `VoskSpeechRecognizer` object: `model` is `none` before a
successful `load_model` and otherwise carries the recognizer behaviour obtained
from the loaded Vosk model; `sample_rate` is fixed to 16000 by `__init__`. -/
structure VoskSpeechRecognizer (σ : Type) where
  model_path : String
  model : Option (RecModel σ)
  sample_rate : Nat

/-- Outcome of the decoding stage of `transcribe_audio_file` (lines 93-104):
either a raised Python exception (caught by the outer handler), an in-band
format-error return, or the decoded sample buffer. -/
inductive DecodeOutcome where
  | exn : DecodeOutcome
  | formatErr : String → DecodeOutcome
  | decoded : List Int → DecodeOutcome
deriving DecidableEq

/-- Embedding of the decoding stage: the librosa branch loads and resamples any
format (raising on undecodable input); the no-librosa fallback accepts only WAV
files and performs the two format checks of lines 100-103 in source order. -/
def decodeAudio (librosaAvailable : Bool) (sampleRate : Nat) (f : AudioFile) : DecodeOutcome :=
  if librosaAvailable then
    match f.librosaDecode with
    | none => DecodeOutcome.exn
    | some a => DecodeOutcome.decoded a
  else
    match f.wavParse with
    | none => DecodeOutcome.exn
    | some wf =>
      if wf.nchannels ≠ 1 ∨ wf.sampwidth ≠ 2 ∨ wf.comptype ≠ "NONE" then
        DecodeOutcome.formatErr librosaMissingMsg
      else if wf.framerate ≠ sampleRate then
        DecodeOutcome.formatErr (wrongRateMsg sampleRate wf.framerate)
      else
        DecodeOutcome.decoded wf.samples

/-- Embedding of `VoskSpeechRecognizer.transcribe_audio_file` (lines 73-131).
Returns the string handed back to the caller together with the filesystem state
after the `finally` block.  When `audio_file.read()` raises, the temp file was
already created but `tmp_file_path` was never assigned, so the `finally` block
does not delete it; on every other path past the model check the recorded path
is unlinked. -/
def VoskSpeechRecognizer.transcribe_audio_file {σ : Type} (vsr : VoskSpeechRecognizer σ)
    (librosaAvailable : Bool) (f : AudioFile) (fs : FS) : String × FS :=
  match vsr.model with
  | none => (modelNotLoadedMsg, fs)
  | some R =>
    let tmpId := (FS.create fs).1
    let fs₁ := (FS.create fs).2
    if f.readOk then
      match decodeAudio librosaAvailable vsr.sample_rate f with
      | DecodeOutcome.exn => (processingErrMsg, fs₁.unlink tmpId)
      | DecodeOutcome.formatErr m => (m, fs₁.unlink tmpId)
      | DecodeOutcome.decoded audio =>
        match transcribeCore R audio with
        | Except.error _ => (processingErrMsg, fs₁.unlink tmpId)
        | Except.ok t => (t, fs₁.unlink tmpId)
    else
      (processingErrMsg, fs₁)

/-- Embedding of the `listen_audio` thread loop of src/Hindi_STT.py (lines 32-43).
The `keep_listening` flag is written concurrently by the stop handler; the value it
has when the loop re-reads it before an iteration is paired with the chunk dequeued
in that iteration.  The loop exits at the first false flag, leaving the remaining
queued chunks unconsumed.  Only non-empty final texts are appended
(`if result.get("text"):`), each with one trailing separator; an exception raised
by the recognizer kills the thread, retaining the accumulated `final_text`. -/
def listen_audio {σ : Type} (R : RecModel σ) :
    List (Bool × Chunk) → σ → String → σ × String
  | [], s, t => (s, t)
  | (keep, c) :: rest, s, t =>
    if keep then
      match R.accept s c with
      | Except.error _ => (s, t)
      | Except.ok (b, s₁) =>
        if b then
          if (R.result s₁).1 ≠ "" then
            listen_audio R rest (R.result s₁).2 (t ++ (R.result s₁).1 ++ " ")
          else
            listen_audio R rest (R.result s₁).2 t
        else
          listen_audio R rest (R.interimResult s₁).2 t
    else (s, t)

/-- The final texts produced by the recognizer along the live loop (the `Result()`
text of every chunk on which `AcceptWaveform` returned true, empty or not), cut
short where an exception kills the thread. -/
def liveFinals {σ : Type} (R : RecModel σ) : List Chunk → σ → List String
  | [], _ => []
  | c :: cs, s =>
    match R.accept s c with
    | Except.error _ => []
    | Except.ok (b, s₁) =>
      if b then
        (R.result s₁).1 :: liveFinals R cs (R.result s₁).2
      else
        liveFinals R cs (R.interimResult s₁).2

/-- Embedding of `LiveVoskRecognizer.process` (src/Testing_STT.py lines 37-43):
unlike `listen_audio` it appends `result.get("text", "") + " "` without testing
for emptiness. -/
def LiveVoskRecognizer.process {σ : Type} (R : RecModel σ) (s : σ) (t : String)
    (c : Chunk) : σ × String :=
  match R.accept s c with
  | Except.error _ => (s, t)
  | Except.ok (b, s₁) =>
    if b then
      ((R.result s₁).2, t ++ (R.result s₁).1 ++ " ")
    else
      ((R.interimResult s₁).2, t)

/-- The Streamlit session and module state manipulated by the button handlers of
src/Hindi_STT.py: `is_listening` and `transcript` are session state,
`keep_listening` and `final_text` are the module-level flags. -/
structure AppState where
  is_listening : Bool
  keep_listening : Bool
  final_text : String
  transcript : String
deriving DecidableEq

/-- The three buttons of the src/Hindi_STT.py UI. -/
inductive UIButton where
  | start : UIButton
  | stop : UIButton
  | clear : UIButton
deriving DecidableEq

/-- The status messages the button handlers display.  No error message of any
kind exists in this vocabulary: the handlers never produce one. -/
inductive UIMsg where
  | started : UIMsg
  | stopped : UIMsg
  | cleared : UIMsg
deriving DecidableEq

/-- Embedding of the button handlers (src/Hindi_STT.py lines 134-154).  A button
rendered with `disabled=True` cannot be clicked at all: pressing it is a no-op
producing no message.  The start button is disabled while `is_listening`, the
stop button while not `is_listening`; clear is always enabled. -/
def press (s : AppState) : UIButton → AppState × Option UIMsg
  | UIButton.start =>
    if s.is_listening then (s, none)
    else (⟨true, true, "", ""⟩, some UIMsg.started)
  | UIButton.stop =>
    if s.is_listening then
      (⟨false, false, s.final_text, s.transcript⟩, some UIMsg.stopped)
    else (s, none)
  | UIButton.clear =>
    (⟨s.is_listening, s.keep_listening, "", ""⟩, some UIMsg.cleared)

/-! ### Helper lemmas about the file-mode chunking -/

theorem pyRangeLen_pos_iff (i L : Nat) : i < pyRangeLen L chunk_size ↔ i * chunk_size < L := by
  unfold pyRangeLen chunk_size
  omega

theorem length_le_pyRangeLen_mul (L : Nat) : L ≤ pyRangeLen L chunk_size * chunk_size := by
  unfold pyRangeLen chunk_size
  omega

theorem flatten_sliceMap (buf : List Int) :
    ∀ (n s : Nat), ((List.range' s n chunk_size).map
        (fun i => (buf.drop i).take chunk_size)).flatten
      = (buf.drop s).take (n * chunk_size) := by
  intro n
  induction n with
  | zero => intro s; simp
  | succ n ih =>
    intro s
    rw [Nat.succ_mul, Nat.add_comm (n * chunk_size) chunk_size, List.take_add]
    simp only [List.range', List.map_cons, List.flatten_cons, ih (s + chunk_size)]
    rw [List.drop_drop]

theorem fileChunks_flatten (buf : List Int) : (fileChunks chunk_size buf).flatten = buf := by
  unfold fileChunks
  rw [flatten_sliceMap buf (pyRangeLen buf.length chunk_size) 0, List.drop_zero]
  exact List.take_of_length_le (length_le_pyRangeLen_mul buf.length)

theorem fileChunks_length (buf : List Int) :
    (fileChunks chunk_size buf).length = pyRangeLen buf.length chunk_size := by
  simp [fileChunks]

theorem fileChunks_getElem? (buf : List Int) (i : Nat) :
    (fileChunks chunk_size buf)[i]? =
      if i * chunk_size < buf.length
      then some ((buf.drop (i * chunk_size)).take chunk_size)
      else none := by
  by_cases h : i * chunk_size < buf.length
  · have hi : i < pyRangeLen buf.length chunk_size := (pyRangeLen_pos_iff i buf.length).mpr h
    have hlen : i < (fileChunks chunk_size buf).length := by
      rw [fileChunks_length]; exact hi
    rw [List.getElem?_eq_getElem hlen, if_pos h]
    unfold fileChunks
    have hr : i < (List.range' 0 (pyRangeLen buf.length chunk_size) chunk_size).length := by
      simpa using hi
    simp only [List.getElem_map, List.getElem_range' i hr, Nat.zero_add, Nat.mul_comm]
  · have hi : pyRangeLen buf.length chunk_size ≤ i := by
      by_contra hc
      exact h ((pyRangeLen_pos_iff i buf.length).mp (Nat.lt_of_not_le hc))
    rw [if_neg h]
    exact List.getElem?_eq_none (by rw [fileChunks_length]; exact hi)

/-- Claim C6: for every decoded sample buffer, the file-mode chunk loop yields the
sequential non-overlapping slices of the buffer in order: the slices concatenate
back to the original buffer, slice `i` is exactly `buf[i*chunk_size : (i+1)*chunk_size]`
(and after the last slice the source yields nothing, modelled by `none`), every
slice that is followed by another slice has exactly `chunk_size` samples, and every
slice is non-empty and at most `chunk_size` samples long. -/
theorem fileChunks_slicing_spec (buf : List Int) :
    (fileChunks chunk_size buf).flatten = buf ∧
    (∀ i : Nat, (fileChunks chunk_size buf)[i]? =
      if i * chunk_size < buf.length
      then some ((buf.drop (i * chunk_size)).take chunk_size)
      else none) ∧
    (∀ i : Nat, i + 1 < (fileChunks chunk_size buf).length →
      ∃ c : Chunk, (fileChunks chunk_size buf)[i]? = some c ∧ c.length = chunk_size) ∧
    (∀ (i : Nat) (c : Chunk), (fileChunks chunk_size buf)[i]? = some c →
      0 < c.length ∧ c.length ≤ chunk_size) := by
  refine ⟨fileChunks_flatten buf, fileChunks_getElem? buf, ?_, ?_⟩
  · intro i hi
    rw [fileChunks_length] at hi
    have h1 : (i + 1) * chunk_size < buf.length :=
      (pyRangeLen_pos_iff (i + 1) buf.length).mp hi
    have h0 : i * chunk_size < buf.length := by
      unfold chunk_size at h1 ⊢; omega
    refine ⟨(buf.drop (i * chunk_size)).take chunk_size, ?_, ?_⟩
    · rw [fileChunks_getElem? buf i, if_pos h0]
    · simp only [List.length_take, List.length_drop]
      unfold chunk_size at h1 ⊢; omega
  · intro i c hc
    rw [fileChunks_getElem? buf i] at hc
    by_cases h0 : i * chunk_size < buf.length
    · rw [if_pos h0] at hc
      have hceq : c = (buf.drop (i * chunk_size)).take chunk_size := (Option.some_inj.mp hc).symm
      subst hceq
      simp only [List.length_take, List.length_drop]
      unfold chunk_size at h0 ⊢; omega
    · rw [if_neg h0] at hc
      exact absurd hc (by simp)

/-! ### Helper lemmas about the transcript-building loops -/

theorem trailingCat_append_single (l : List String) (f : String) :
    trailingCat l ++ f = sepConcat (l ++ [f]) := by
  induction l with
  | nil => simp [trailingCat, sepConcat, String.empty_append]
  | cons t l ih =>
    cases l with
    | nil => simp [trailingCat, sepConcat, String.append_empty, String.append_assoc]
    | cons u l₂ =>
      simp only [trailingCat, List.cons_append, sepConcat, String.append_assoc] at ih ⊢
      rw [ih]
      rfl

theorem chunkLoop_collectFinals {σ : Type} (R : RecModel σ) :
    ∀ (cs : List Chunk) (s : σ) (t : String),
      chunkLoop R cs s t =
        match collectFinals R cs s with
        | Except.error e => Except.error e
        | Except.ok (s₂, ts) => Except.ok (s₂, t ++ trailingCat ts) := by
  intro cs
  induction cs with
  | nil =>
    intro s t
    simp [chunkLoop, collectFinals, trailingCat, String.append_empty]
  | cons c cs ih =>
    intro s t
    cases h : R.accept s c with
    | error e => simp [chunkLoop, collectFinals, h]
    | ok p =>
      obtain ⟨b, s₁⟩ := p
      cases b with
      | false =>
        simp only [chunkLoop, collectFinals, h]
        simpa using ih s₁ t
      | true =>
        simp only [chunkLoop, collectFinals, h, if_true]
        rw [ih ((R.result s₁).2) (t ++ (R.result s₁).1 ++ " ")]
        cases hcf : collectFinals R cs (R.result s₁).2 with
        | error e => simp [hcf]
        | ok q =>
          obtain ⟨s₂, ts⟩ := q
          simp [hcf, trailingCat, String.append_assoc]

/-- Recognizer behaviour that accepts every chunk with final text `txt` and whose
end-of-stream flush returns `fin`; its interim results are empty. -/
def recConstFinal (txt fin : String) : RecModel Unit :=
  ⟨(), fun s _ => Except.ok (true, s), fun s => (txt, s), fun s => ("", s), fun _ => fin⟩

/-- Claim C1, counterexample: with a recognizer that accepts the single chunk with
final text `"a"` and flushes the empty final `""` at end of stream, the displayed
transcript is `"a"`, while the single-separator concatenation of the emitted final
texts in emission order is `"a "` — `transcript.strip()` removes the trailing
separator, so the displayed text is not literally the separator-joined concatenation
of every `Final.text`. -/
theorem transcribe_sepConcat_cex :
    transcribeCore (recConstFinal "a" "") [0] = Except.ok "a" ∧
    (emittedFinals (recConstFinal "a" "") [0]).map sepConcat = Except.ok "a " ∧
    Except.ok "a" ≠ (Except.ok "a " : Except Unit String) := by
  refine ⟨rfl, rfl, ?_⟩
  intro h
  exact absurd (Except.ok.inj h) (by decide)

/-- Claim C1 (amended): for every recognizer behaviour and every decoded chunk
sequence of a session that completes without an exception, the displayed transcript
after `stop()` equals the concatenation of every `Final.text` in emission order,
exactly once each, with a single separator between consecutive segments, except
that leading and trailing whitespace of that concatenation is removed by the final
`transcript.strip()`. -/
theorem transcribe_finals_amended {σ : Type} (R : RecModel σ) (audio : List Int)
    (ts : List String) (h : emittedFinals R audio = Except.ok ts) :
    transcribeCore R audio = Except.ok (pyStrip (sepConcat ts)) := by
  unfold emittedFinals at h
  unfold transcribeCore
  rw [chunkLoop_collectFinals R (fileChunks chunk_size audio) R.init ""]
  cases hcf : collectFinals R (fileChunks chunk_size audio) R.init with
  | error e =>
    rw [hcf] at h
    exact absurd h (by simp)
  | ok q =>
    obtain ⟨s, l⟩ := q
    rw [hcf] at h
    have hts : ts = l ++ [R.finalResult s] := by
      have := Except.ok.inj h
      exact this.symm
    subst hts
    dsimp only
    rw [String.empty_append, trailingCat_append_single l (R.finalResult s)]

/-- Claim C1, witness: a concrete completed session on which the amended claim is
instantiated. -/
theorem transcribe_finals_amended_witness :
    emittedFinals (recConstFinal "a" "b") [0] = Except.ok ["a", "b"] ∧
    transcribeCore (recConstFinal "a" "b") [0] = Except.ok (pyStrip (sepConcat ["a", "b"])) :=
  ⟨rfl, transcribe_finals_amended (recConstFinal "a" "b") [0] ["a", "b"] rfl⟩

/-- Recognizer behaviour that never detects an endpoint: `AcceptWaveform` always
returns false while the utterance `"hello"` stays in flight as the partial result;
only `FinalResult()` would flush it. -/
def recNoAccept : RecModel Unit :=
  ⟨(), fun s _ => Except.ok (false, s), fun s => ("", s), fun s => ("hello", s),
    fun _ => "hello"⟩

/-- Claim C2, counterexample: with audio whose spoken text `"hello"` is still in
flight (no natural endpoint detected) when the session ends, the file mode flushes
it via `FinalResult()` and displays `"hello"`, but the live-microphone loop of
src/Hindi_STT.py simply exits on stop and displays `""` — the in-flight partial is
discarded, so stop() does not flush in every mode. -/
theorem stop_flush_cex :
    transcribeCore recNoAccept [0] = Except.ok "hello" ∧
    (listen_audio recNoAccept [(true, [0])] recNoAccept.init "").2 = "" :=
  ⟨rfl, rfl⟩

/-- Claim C2 (amended): in file mode the end-of-stream stop flushes the recognizer
via `FinalResult()`, appending its text to the looped transcript before `strip()`;
in the live-microphone mode the loop exits on stop without ever consulting
`FinalResult()` — its outcome is invariant under replacing the `FinalResult`
behaviour — so an in-flight partial is discarded rather than flushed. -/
theorem stop_flush_amended :
    (∀ (σ : Type) (R : RecModel σ) (audio : List Int) (s : σ) (t : String),
      chunkLoop R (fileChunks chunk_size audio) R.init "" = Except.ok (s, t) →
      transcribeCore R audio = Except.ok (pyStrip (t ++ R.finalResult s))) ∧
    (∀ (σ : Type) (R : RecModel σ) (fr : σ → String) (q : List (Bool × Chunk)) (s : σ)
        (t : String),
      listen_audio ⟨R.init, R.accept, R.result, R.interimResult, fr⟩ q s t
        = listen_audio R q s t) := by
  constructor
  · intro σ R audio s t h
    unfold transcribeCore
    rw [h]
  · intro σ R fr q
    induction q with
    | nil => intro s t; rfl
    | cons p q ih =>
      intro s t
      obtain ⟨keep, c⟩ := p
      cases keep with
      | false => rfl
      | true =>
        cases h : R.accept s c with
        | error e => simp [listen_audio, h]
        | ok p₁ =>
          obtain ⟨b, s₁⟩ := p₁
          cases b with
          | false => simpa [listen_audio, h] using ih (R.interimResult s₁).2 t
          | true =>
            by_cases hr : (R.result s₁).1 = ""
            · simpa [listen_audio, h, hr] using ih (R.result s₁).2 t
            · simpa [listen_audio, h, hr] using
                ih (R.result s₁).2 (t ++ (R.result s₁).1 ++ " ")

/-- Claim C2, witness: the amended claim instantiated at a concrete recognizer and
chunk sequence. -/
theorem stop_flush_amended_witness :
    transcribeCore recNoAccept [0] = Except.ok (pyStrip ("" ++ recNoAccept.finalResult ())) ∧
    listen_audio ⟨recNoAccept.init, recNoAccept.accept, recNoAccept.result,
        recNoAccept.interimResult, fun _ => "x"⟩ [(true, [0])] () ""
      = listen_audio recNoAccept [(true, [0])] () "" :=
  ⟨stop_flush_amended.1 Unit recNoAccept [0] () "" rfl,
    stop_flush_amended.2 Unit recNoAccept (fun _ => "x") [(true, [0])] () ""⟩

/-- Claim C3, counterexample: starting from the initial UI state, the first press of
Start activates the session, and a second press of Start without an intervening stop
is a disabled-button no-op — the state is unchanged and no message is produced; in
particular no `AlreadyActive` failure occurs (no error of any kind exists in the
handlers' output vocabulary `UIMsg`). -/
theorem start_twice_cex :
    (press ⟨false, false, "", ""⟩ UIButton.start).2 = some UIMsg.started ∧
    press (press ⟨false, false, "", ""⟩ UIButton.start).1 UIButton.start
      = ((press ⟨false, false, "", ""⟩ UIButton.start).1, none) :=
  ⟨rfl, rfl⟩

/-- Claim C3 (amended): calling start during an active session and stop outside one
are disabled-button no-ops that change nothing and report nothing (there is no
`AlreadyActive` or `NotActive` error in the code), and audio queued after the
keep-listening flag is cleared is never fed to the recognizer — the loop exits,
silently dropping the remaining chunks rather than failing. -/
theorem session_misuse_amended :
    (∀ s : AppState, s.is_listening = true → press s UIButton.start = (s, none)) ∧
    (∀ s : AppState, s.is_listening = false → press s UIButton.stop = (s, none)) ∧
    (∀ (σ : Type) (R : RecModel σ) (c : Chunk) (rest : List (Bool × Chunk)) (s : σ)
        (t : String), listen_audio R ((false, c) :: rest) s t = (s, t)) := by
  refine ⟨?_, ?_, ?_⟩
  · intro s h
    simp [press, h]
  · intro s h
    simp [press, h]
  · intro σ R c rest s t
    simp [listen_audio]

/-- Claim C3, witness: the amended claim instantiated at concrete states. -/
theorem session_misuse_amended_witness :
    ((⟨true, true, "", ""⟩ : AppState).is_listening = true ∧
      press ⟨true, true, "", ""⟩ UIButton.start = (⟨true, true, "", ""⟩, none)) ∧
    ((⟨false, false, "", ""⟩ : AppState).is_listening = false ∧
      press ⟨false, false, "", ""⟩ UIButton.stop = (⟨false, false, "", ""⟩, none)) ∧
    listen_audio recNoAccept [(false, [0])] () "" = ((), "") :=
  ⟨⟨rfl, session_misuse_amended.1 _ rfl⟩, ⟨rfl, session_misuse_amended.2.1 _ rfl⟩,
    session_misuse_amended.2.2 Unit recNoAccept [0] [] () ""⟩

/-! ### Helper lemmas about the error-message strings and the format check -/

theorem errorPrefix_wrongRateMsg (sr fr : Nat) :
    "Error".data <+: (wrongRateMsg sr fr).data := by
  have h1 : "Error".data <+: "Error: Audio must be ".data := by decide
  have h2 : "Error: Audio must be ".data <+: (wrongRateMsg sr fr).data := by
    unfold wrongRateMsg
    simp only [String.data_append, List.append_assoc]
    exact List.prefix_append _ _
  exact h1.trans h2

theorem actualRate_infix_wrongRateMsg (sr fr : Nat) :
    (toString fr).data <:+: (wrongRateMsg sr fr).data := by
  refine ⟨("Error: Audio must be " ++ toString sr ++ "Hz. This file is ").data,
    "Hz.".data, ?_⟩
  simp [wrongRateMsg, String.data_append, List.append_assoc]

theorem decodeAudio_noLibrosa (nm : String) (ro : Bool) (ld : Option (List Int))
    (wf : WavFile) (sr : Nat) :
    decodeAudio false sr ⟨nm, ro, ld, some wf⟩ =
      if wf.nchannels ≠ 1 ∨ wf.sampwidth ≠ 2 ∨ wf.comptype ≠ "NONE" then
        DecodeOutcome.formatErr librosaMissingMsg
      else if wf.framerate ≠ sr then
        DecodeOutcome.formatErr (wrongRateMsg sr wf.framerate)
      else DecodeOutcome.decoded wf.samples := rfl

set_option maxRecDepth 4000 in
/-- Claim C4, counterexample: with librosa absent, a stereo (2-channel) WAV file
whose rate is 8000 Hz (wrong, the required rate being 16000 Hz) fails the
channel/width/compression check first, so the returned error is the one generic
message — which does not name the offending sample rate (its digits do not occur
in the message). -/
theorem format_error_naming_cex :
    decodeAudio false 16000 ⟨"f.wav", true, none, some ⟨2, 2, "NONE", 8000, []⟩⟩
      = DecodeOutcome.formatErr librosaMissingMsg ∧
    (8000 : Nat) ≠ 16000 ∧
    ¬ ("8000".data <:+: librosaMissingMsg.data) :=
  ⟨rfl, by decide, by decide⟩

/-- Claim C4 (amended): with librosa absent, a WAV file is accepted exactly when it
is already mono, 16-bit, uncompressed PCM at the required sample rate.  A file
failing the channel/width/compression check gets the single generic unsupported
message — that check precedes the rate check, so even a file whose rate is also
wrong gets the generic message, which names no specific property; only a file
passing the first check but with a wrong sample rate gets the error naming the
required and actual rates (the digits of the actual rate occur in it). -/
theorem format_check_amended :
    (∀ (nm : String) (ro : Bool) (ld : Option (List Int)) (wf : WavFile) (sr : Nat),
      (decodeAudio false sr ⟨nm, ro, ld, some wf⟩ = DecodeOutcome.decoded wf.samples ↔
        wf.nchannels = 1 ∧ wf.sampwidth = 2 ∧ wf.comptype = "NONE" ∧ wf.framerate = sr) ∧
      ((wf.nchannels ≠ 1 ∨ wf.sampwidth ≠ 2 ∨ wf.comptype ≠ "NONE") →
        decodeAudio false sr ⟨nm, ro, ld, some wf⟩
          = DecodeOutcome.formatErr librosaMissingMsg) ∧
      (wf.nchannels = 1 → wf.sampwidth = 2 → wf.comptype = "NONE" → wf.framerate ≠ sr →
        decodeAudio false sr ⟨nm, ro, ld, some wf⟩
          = DecodeOutcome.formatErr (wrongRateMsg sr wf.framerate))) ∧
    (∀ (sr fr : Nat), (toString fr).data <:+: (wrongRateMsg sr fr).data) := by
  refine ⟨?_, actualRate_infix_wrongRateMsg⟩
  intro nm ro ld wf sr
  rw [decodeAudio_noLibrosa]
  by_cases h1 : wf.nchannels ≠ 1 ∨ wf.sampwidth ≠ 2 ∨ wf.comptype ≠ "NONE"
  · rw [if_pos h1]
    refine ⟨?_, fun _ => rfl, ?_⟩
    · constructor
      · intro h
        exact absurd h (by simp)
      · rintro ⟨e1, e2, e3, _⟩
        rcases h1 with h | h | h
        · exact absurd e1 h
        · exact absurd e2 h
        · exact absurd e3 h
    · intro e1 e2 e3 _
      rcases h1 with h | h | h
      · exact absurd e1 h
      · exact absurd e2 h
      · exact absurd e3 h
  · rw [if_neg h1]
    push_neg at h1
    obtain ⟨e1, e2, e3⟩ := h1
    by_cases h2 : wf.framerate ≠ sr
    · rw [if_pos h2]
      refine ⟨?_, ?_, fun _ _ _ _ => rfl⟩
      · constructor
        · intro h
          exact absurd h (by simp)
        · rintro ⟨_, _, _, e4⟩
          exact absurd e4 h2
      · intro h
        rcases h with h | h | h
        · exact absurd e1 h
        · exact absurd e2 h
        · exact absurd e3 h
    · rw [if_neg h2]
      push_neg at h2
      refine ⟨?_, ?_, ?_⟩
      · simp [e1, e2, e3, h2]
      · intro h
        rcases h with h | h | h
        · exact absurd e1 h
        · exact absurd e2 h
        · exact absurd e3 h
      · intro _ _ _ h4
        exact absurd h2 h4

/-- Claim C4, witness: the amended claim instantiated at a mono 16-bit PCM WAV file
whose only defect is an 8000 Hz sample rate. -/
theorem format_check_amended_witness :
    decodeAudio false 16000 ⟨"g.wav", true, none, some ⟨1, 2, "NONE", 8000, []⟩⟩
      = DecodeOutcome.formatErr (wrongRateMsg 16000 8000) ∧
    (toString 8000).data <:+: (wrongRateMsg 16000 8000).data :=
  ⟨((format_check_amended.1 "g.wav" true none ⟨1, 2, "NONE", 8000, []⟩ 16000).2.2
      rfl rfl rfl (by decide)),
    format_check_amended.2 16000 8000⟩

/-! ### Case-analysis helpers for `transcribe_audio_file` -/

theorem transcribe_model_none {σ : Type} (vsr : VoskSpeechRecognizer σ) (lib : Bool)
    (f : AudioFile) (fs : FS) (hm : vsr.model = none) :
    vsr.transcribe_audio_file lib f fs = (modelNotLoadedMsg, fs) := by
  unfold VoskSpeechRecognizer.transcribe_audio_file
  rw [hm]

theorem transcribe_model_some {σ : Type} (vsr : VoskSpeechRecognizer σ) (R : RecModel σ)
    (lib : Bool) (f : AudioFile) (fs : FS) (hm : vsr.model = some R) :
    vsr.transcribe_audio_file lib f fs =
      if f.readOk then
        match decodeAudio lib vsr.sample_rate f with
        | DecodeOutcome.exn => (processingErrMsg, (FS.create fs).2.unlink (FS.create fs).1)
        | DecodeOutcome.formatErr m => (m, (FS.create fs).2.unlink (FS.create fs).1)
        | DecodeOutcome.decoded audio =>
          match transcribeCore R audio with
          | Except.error _ => (processingErrMsg, (FS.create fs).2.unlink (FS.create fs).1)
          | Except.ok t => (t, (FS.create fs).2.unlink (FS.create fs).1)
      else (processingErrMsg, (FS.create fs).2) := by
  unfold VoskSpeechRecognizer.transcribe_audio_file
  rw [hm]

theorem transcribe_text_fs_independent {σ : Type} (vsr : VoskSpeechRecognizer σ)
    (lib : Bool) (f : AudioFile) (fs fs' : FS) :
    (vsr.transcribe_audio_file lib f fs).1 = (vsr.transcribe_audio_file lib f fs').1 := by
  cases hm : vsr.model with
  | none =>
    rw [transcribe_model_none vsr lib f fs hm, transcribe_model_none vsr lib f fs' hm]
  | some R =>
    rw [transcribe_model_some vsr R lib f fs hm, transcribe_model_some vsr R lib f fs' hm]
    cases hro : f.readOk with
    | false => simp
    | true =>
      simp only [if_true]
      cases hd : decodeAudio lib vsr.sample_rate f with
      | exn => rfl
      | formatErr m => rfl
      | decoded audio =>
        cases ht : transcribeCore R audio with
        | error e => simp only [ht]
        | ok t => simp only [ht]

/-- Claim C5: file-mode transcription is deterministic.  Each call constructs a
fresh recognizer from the loaded model (starting at `RecModel.init`), so feeding
the same file again in a second fresh session — with the filesystem in whatever
state the first call left it — yields the identical finalized transcript text. -/
theorem transcribe_deterministic {σ : Type} (vsr : VoskSpeechRecognizer σ)
    (lib : Bool) (f : AudioFile) (fs : FS) :
    (vsr.transcribe_audio_file lib f ((vsr.transcribe_audio_file lib f fs).2)).1
      = (vsr.transcribe_audio_file lib f fs).1 :=
  transcribe_text_fs_independent vsr lib f _ fs

/-- Recognizer behaviour that accepts the first chunk with final text `"hello"` and
raises an exception on any later chunk. -/
def recThenBoom : RecModel Nat :=
  ⟨0, fun s _ => if s = 0 then Except.ok (true, 1) else Except.error (),
    fun s => ("hello", s), fun s => ("", s), fun _ => "bye"⟩

/-- A sample buffer one sample longer than one chunk, so the slicing loop feeds
exactly two chunks. -/
def audioTwoChunks : List Int := List.replicate 4001 0

theorem audioTwoChunks_length : audioTwoChunks.length = 4001 := by
  unfold audioTwoChunks
  exact List.length_replicate 4001 0

theorem audioTwoChunks_chunks :
    fileChunks chunk_size audioTwoChunks = [List.replicate 4000 (0 : Int), [0]] := by
  unfold fileChunks
  rw [audioTwoChunks_length]
  have h1 : pyRangeLen 4001 chunk_size = 2 := rfl
  rw [h1]
  have h2 : List.range' 0 2 chunk_size = [0, chunk_size] := rfl
  rw [h2]
  simp only [List.map_cons, List.map_nil, List.drop_zero]
  unfold audioTwoChunks chunk_size
  rw [List.take_replicate, List.drop_replicate]
  norm_num

theorem transcribeCore_boom : transcribeCore recThenBoom audioTwoChunks = Except.error () := by
  unfold transcribeCore
  rw [audioTwoChunks_chunks]
  rfl

/-- The recognizer object holding `recThenBoom` as its loaded model. -/
def vskBoom : VoskSpeechRecognizer Nat := ⟨"model-dir", some recThenBoom, 16000⟩

/-- An uploaded file that reads fine and decodes (via librosa) to `audioTwoChunks`. -/
def fileTwoChunks : AudioFile := ⟨"a.wav", true, some audioTwoChunks, none⟩

/-- Claim C7, counterexample: a session whose first chunk finalizes `"hello"` and
whose second chunk raises an exception aborts through the catch-all handler: the
call returns only the fixed error string, in which the previously finalized
segment `"hello"` does not occur — the finalized segments of the aborted session
are discarded from the displayed transcript rather than kept intact. -/
theorem abort_discards_finals_cex :
    finalsUntilError recThenBoom (fileChunks chunk_size audioTwoChunks) recThenBoom.init
      = (["hello"], true) ∧
    (vskBoom.transcribe_audio_file true fileTwoChunks ⟨0, []⟩).1 = processingErrMsg ∧
    ¬ ("hello".data <:+: processingErrMsg.data) := by
  refine ⟨?_, ?_, by decide⟩
  · rw [audioTwoChunks_chunks]
    rfl
  · rw [transcribe_model_some vskBoom recThenBoom true fileTwoChunks ⟨0, []⟩ rfl]
    have hro : fileTwoChunks.readOk = true := rfl
    rw [hro, if_pos rfl]
    have hd : decodeAudio true vskBoom.sample_rate fileTwoChunks
        = DecodeOutcome.decoded audioTwoChunks := rfl
    rw [hd]
    dsimp only
    rw [transcribeCore_boom]

/-- Claim C7 (amended): a session that aborts with a processing exception discards
the segments it had finalized: the call returns exactly the fixed error string,
independent of whatever finals were collected before the abort, and the temp file
is still removed by the `finally` block; the recognizer object itself is untouched
(the call threads no mutable recognizer state back to the caller). -/
theorem abort_output_amended {σ : Type} (vsr : VoskSpeechRecognizer σ) (R : RecModel σ)
    (lib : Bool) (f : AudioFile) (fs : FS) (audio : List Int)
    (hm : vsr.model = some R) (hro : f.readOk = true)
    (hd : decodeAudio lib vsr.sample_rate f = DecodeOutcome.decoded audio)
    (he : transcribeCore R audio = Except.error ()) :
    vsr.transcribe_audio_file lib f fs
      = (processingErrMsg, (FS.create fs).2.unlink (FS.create fs).1) := by
  rw [transcribe_model_some vsr R lib f fs hm, hro, if_pos rfl, hd]
  dsimp only
  rw [he]

/-- Claim C7, witness: the amended claim instantiated at the concrete aborting
session. -/
theorem abort_output_amended_witness :
    vskBoom.transcribe_audio_file true fileTwoChunks ⟨0, []⟩
      = (processingErrMsg, (FS.create ⟨0, []⟩).2.unlink (FS.create ⟨0, []⟩).1) :=
  abort_output_amended vskBoom recThenBoom true fileTwoChunks ⟨0, []⟩ audioTwoChunks
    rfl rfl rfl transcribeCore_boom

/-! ### The error-string discipline of `transcribe_audio_file` -/

theorem decodeAudio_true_eq (sr : Nat) (f : AudioFile) :
    decodeAudio true sr f =
      match f.librosaDecode with
      | none => DecodeOutcome.exn
      | some a => DecodeOutcome.decoded a := rfl

theorem decodeAudio_false_eq (sr : Nat) (f : AudioFile) :
    decodeAudio false sr f =
      match f.wavParse with
      | none => DecodeOutcome.exn
      | some wf =>
        if wf.nchannels ≠ 1 ∨ wf.sampwidth ≠ 2 ∨ wf.comptype ≠ "NONE" then
          DecodeOutcome.formatErr librosaMissingMsg
        else if wf.framerate ≠ sr then
          DecodeOutcome.formatErr (wrongRateMsg sr wf.framerate)
        else DecodeOutcome.decoded wf.samples := rfl

theorem errorPrefix_modelNotLoadedMsg : "Error".data <+: modelNotLoadedMsg.data := by
  decide

theorem errorPrefix_processingErrMsg : "Error".data <+: processingErrMsg.data := by
  decide

set_option maxRecDepth 4000 in
theorem errorPrefix_librosaMissingMsg : "Error".data <+: librosaMissingMsg.data := by
  decide

theorem decodeAudio_formatErr_startsError (lib : Bool) (sr : Nat) (f : AudioFile) (m : String)
    (h : decodeAudio lib sr f = DecodeOutcome.formatErr m) : "Error".data <+: m.data := by
  cases lib with
  | true =>
    rw [decodeAudio_true_eq] at h
    cases hld : f.librosaDecode with
    | none =>
      rw [hld] at h
      exact absurd h (by simp)
    | some a =>
      rw [hld] at h
      exact absurd h (by simp)
  | false =>
    rw [decodeAudio_false_eq] at h
    cases hwp : f.wavParse with
    | none =>
      rw [hwp] at h
      exact absurd h (by simp)
    | some wf =>
      rw [hwp] at h
      dsimp only at h
      by_cases h1 : wf.nchannels ≠ 1 ∨ wf.sampwidth ≠ 2 ∨ wf.comptype ≠ "NONE"
      · rw [if_pos h1] at h
        have hm : librosaMissingMsg = m := DecodeOutcome.formatErr.inj h
        rw [← hm]
        exact errorPrefix_librosaMissingMsg
      · rw [if_neg h1] at h
        by_cases h2 : wf.framerate ≠ sr
        · rw [if_pos h2] at h
          have hm : wrongRateMsg sr wf.framerate = m := DecodeOutcome.formatErr.inj h
          rw [← hm]
          exact errorPrefix_wrongRateMsg sr wf.framerate
        · rw [if_neg h2] at h
          exact absurd h (by simp)

theorem transcribe_text_readFail {σ : Type} (vsr : VoskSpeechRecognizer σ) (R : RecModel σ)
    (lib : Bool) (f : AudioFile) (fs : FS) (hm : vsr.model = some R)
    (hro : f.readOk = false) :
    (vsr.transcribe_audio_file lib f fs).1 = processingErrMsg := by
  rw [transcribe_model_some vsr R lib f fs hm, hro, if_neg Bool.false_ne_true]

theorem transcribe_text_eq {σ : Type} (vsr : VoskSpeechRecognizer σ) (R : RecModel σ)
    (lib : Bool) (f : AudioFile) (fs : FS) (hm : vsr.model = some R)
    (hro : f.readOk = true) :
    (vsr.transcribe_audio_file lib f fs).1 =
      match decodeAudio lib vsr.sample_rate f with
      | DecodeOutcome.exn => processingErrMsg
      | DecodeOutcome.formatErr m => m
      | DecodeOutcome.decoded audio =>
        match transcribeCore R audio with
        | Except.error _ => processingErrMsg
        | Except.ok t => t := by
  rw [transcribe_model_some vsr R lib f fs hm, hro, if_pos rfl]
  cases hd : decodeAudio lib vsr.sample_rate f with
  | exn => rfl
  | formatErr m => rfl
  | decoded audio =>
    dsimp only
    cases ht : transcribeCore R audio with
    | error e => simp only [ht]
    | ok t => simp only [ht]

/-- Claim C8: `transcribe_audio_file` never propagates an exception — it always
hands back a string — and every failure is reported in-band as a string beginning
with `"Error"`: exactly `modelNotLoadedMsg` before a successful `load_model`, the
format-specific message when the no-librosa check rejects the file, and exactly
`processingErrMsg` when any Python exception occurs (a failed read, a failed
decode, or an exception inside the chunk loop); on every input the result either
begins with `"Error"` or is the successfully computed transcript. -/
theorem transcribe_inband_errors {σ : Type} (vsr : VoskSpeechRecognizer σ)
    (lib : Bool) (f : AudioFile) (fs : FS) :
    (vsr.model = none → (vsr.transcribe_audio_file lib f fs).1 = modelNotLoadedMsg) ∧
    (∀ R : RecModel σ, vsr.model = some R → f.readOk = false →
      (vsr.transcribe_audio_file lib f fs).1 = processingErrMsg) ∧
    (∀ R : RecModel σ, vsr.model = some R → f.readOk = true →
      decodeAudio lib vsr.sample_rate f = DecodeOutcome.exn →
      (vsr.transcribe_audio_file lib f fs).1 = processingErrMsg) ∧
    (∀ (R : RecModel σ) (m : String), vsr.model = some R → f.readOk = true →
      decodeAudio lib vsr.sample_rate f = DecodeOutcome.formatErr m →
      (vsr.transcribe_audio_file lib f fs).1 = m) ∧
    (∀ (R : RecModel σ) (audio : List Int), vsr.model = some R → f.readOk = true →
      decodeAudio lib vsr.sample_rate f = DecodeOutcome.decoded audio →
      transcribeCore R audio = Except.error () →
      (vsr.transcribe_audio_file lib f fs).1 = processingErrMsg) ∧
    ("Error".data <+: ((vsr.transcribe_audio_file lib f fs).1).data ∨
      ∃ (R : RecModel σ) (audio : List Int), vsr.model = some R ∧ f.readOk = true ∧
        decodeAudio lib vsr.sample_rate f = DecodeOutcome.decoded audio ∧
        transcribeCore R audio = Except.ok (vsr.transcribe_audio_file lib f fs).1) := by
  refine ⟨?_, ?_, ?_, ?_, ?_, ?_⟩
  · intro hm
    rw [transcribe_model_none vsr lib f fs hm]
  · intro R hm hro
    exact transcribe_text_readFail vsr R lib f fs hm hro
  · intro R hm hro hd
    rw [transcribe_text_eq vsr R lib f fs hm hro, hd]
  · intro R m hm hro hd
    rw [transcribe_text_eq vsr R lib f fs hm hro, hd]
  · intro R audio hm hro hd he
    rw [transcribe_text_eq vsr R lib f fs hm hro, hd]
    dsimp only
    rw [he]
  · cases hm : vsr.model with
    | none =>
      rw [transcribe_model_none vsr lib f fs hm]
      exact Or.inl errorPrefix_modelNotLoadedMsg
    | some R =>
      cases hro : f.readOk with
      | false =>
        rw [transcribe_text_readFail vsr R lib f fs hm hro]
        exact Or.inl errorPrefix_processingErrMsg
      | true =>
        rw [transcribe_text_eq vsr R lib f fs hm hro]
        cases hd : decodeAudio lib vsr.sample_rate f with
        | exn => exact Or.inl errorPrefix_processingErrMsg
        | formatErr m =>
          exact Or.inl (decodeAudio_formatErr_startsError lib vsr.sample_rate f m hd)
        | decoded audio =>
          dsimp only
          cases ht : transcribeCore R audio with
          | error e => exact Or.inl errorPrefix_processingErrMsg
          | ok t =>
            refine Or.inr ⟨R, audio, rfl, rfl, rfl, ?_⟩
            exact ht

/-- A recognizer object before any successful `load_model`. -/
def vskNone : VoskSpeechRecognizer Unit := ⟨"missing-model-dir", none, 16000⟩

/-- Claim C8, witness: the in-band error discipline instantiated at a call before
`load_model` and at the concrete aborting session. -/
theorem transcribe_inband_errors_witness :
    (vskNone.model = none ∧
      (vskNone.transcribe_audio_file true ⟨"a.wav", true, some [], none⟩ ⟨0, []⟩).1
        = modelNotLoadedMsg) ∧
    (vskBoom.model = some recThenBoom ∧ fileTwoChunks.readOk = true ∧
      decodeAudio true vskBoom.sample_rate fileTwoChunks
        = DecodeOutcome.decoded audioTwoChunks ∧
      transcribeCore recThenBoom audioTwoChunks = Except.error () ∧
      (vskBoom.transcribe_audio_file true fileTwoChunks ⟨0, []⟩).1 = processingErrMsg) :=
  ⟨⟨rfl, (transcribe_inband_errors vskNone true ⟨"a.wav", true, some [], none⟩ ⟨0, []⟩).1 rfl⟩,
    ⟨rfl, rfl, rfl, transcribeCore_boom,
      (transcribe_inband_errors vskBoom true fileTwoChunks ⟨0, []⟩).2.2.2.2.1 recThenBoom
        audioTwoChunks rfl rfl rfl transcribeCore_boom⟩⟩

/-- Claim C9, counterexample: when `audio_file.read()` raises, the temporary file
has already been created with `delete=False` but `tmp_file_path` was never
assigned, so the `finally` block skips the deletion: the temp file (id 0, created
by this call) is still on disk afterwards. -/
theorem tmpfile_leak_cex :
    ((vskBoom.transcribe_audio_file true ⟨"b.wav", false, some [], none⟩ ⟨0, []⟩).2).files
      = [0] ∧ ([0] : List Nat) ≠ [] := by
  refine ⟨?_, by decide⟩
  rw [transcribe_model_some vskBoom recThenBoom true ⟨"b.wav", false, some [], none⟩
    ⟨0, []⟩ rfl]
  rfl

/-- Claim C9 (amended): whenever `audio_file.read()` succeeds — so `tmp_file_path`
is recorded — the temporary file is deleted on every exit path (normal return,
in-band error return, and exception): the files on disk after the call are exactly
the files before it.  Only when the read itself raises does the freshly created
temp file survive the call. -/
theorem tmpfile_cleanup_amended {σ : Type} (vsr : VoskSpeechRecognizer σ)
    (lib : Bool) (f : AudioFile) (fs : FS) (hro : f.readOk = true) :
    ((vsr.transcribe_audio_file lib f fs).2).files = fs.files := by
  cases hm : vsr.model with
  | none => rw [transcribe_model_none vsr lib f fs hm]
  | some R =>
    rw [transcribe_model_some vsr R lib f fs hm, hro, if_pos rfl]
    cases hd : decodeAudio lib vsr.sample_rate f with
    | exn => simp [FS.create, FS.unlink]
    | formatErr m => simp [FS.create, FS.unlink]
    | decoded audio =>
      dsimp only
      cases ht : transcribeCore R audio with
      | error e => simp [ht, FS.create, FS.unlink]
      | ok t => simp [ht, FS.create, FS.unlink]

/-- Claim C9, witness: a successful-read call on an arbitrary filesystem state
leaves the files on disk unchanged. -/
theorem tmpfile_cleanup_amended_witness :
    (⟨"ok.wav", true, some [], none⟩ : AudioFile).readOk = true ∧
    ((vskBoom.transcribe_audio_file true ⟨"ok.wav", true, some [], none⟩ ⟨5, [3]⟩).2).files
      = (⟨5, [3]⟩ : FS).files :=
  ⟨rfl, tmpfile_cleanup_amended vskBoom true ⟨"ok.wav", true, some [], none⟩ ⟨5, [3]⟩ rfl⟩

/-- Claim C10: in the live-microphone loop of src/Hindi_STT.py, a final recognizer
result whose text is empty leaves the accumulated transcript unchanged — only
non-empty final texts are appended, each followed by exactly one trailing
separator — so after any sequence of chunks the transcript equals the non-empty
final texts joined in order, each with a single trailing separator. -/
theorem listen_transcript_spec {σ : Type} (R : RecModel σ) (chunks : List Chunk)
    (s : σ) (t : String) :
    (listen_audio R (chunks.map (fun c => (true, c))) s t).2
      = t ++ trailingCat ((liveFinals R chunks s).filter (fun x => x != "")) := by
  induction chunks generalizing s t with
  | nil => simp [listen_audio, liveFinals, trailingCat, String.append_empty]
  | cons c cs ih =>
    simp only [List.map_cons]
    cases h : R.accept s c with
    | error e =>
      simp [listen_audio, liveFinals, h, trailingCat, String.append_empty]
    | ok p =>
      obtain ⟨b, s₁⟩ := p
      cases b with
      | false =>
        simpa [listen_audio, liveFinals, h] using ih (R.interimResult s₁).2 t
      | true =>
        by_cases hr : (R.result s₁).1 = ""
        · simpa [listen_audio, liveFinals, h, hr, List.filter_cons] using
            ih (R.result s₁).2 t
        · simpa [listen_audio, liveFinals, h, hr, List.filter_cons, trailingCat,
            String.append_assoc] using
            ih (R.result s₁).2 (t ++ (R.result s₁).1 ++ " ")
